import Mathlib

/-!
Verification of the transcription engine of `obsidian-transcription`
(`src/transcribe.ts`), as a shallow embedding in Lean 4.

Modelling conventions:
* Times are in whole seconds (`Nat`); JavaScript `Math.floor(a / b)` on
  non-negative numbers is `Nat` division.
* The `date-fns` `format` call together with the timezone-offset correction
  renders an elapsed duration; it is embedded for the two patterns the
  program selects (`"mm:ss"`, `"HH:mm:ss"`).
* Asynchronous control flow is embedded by passing the sequence of remote
  responses (an environment) to a pure function that returns the settled
  outcome of the promise: `resolved`, `rejected`, or `unsettled` (the
  promise never settles, or is still pending when the given responses are
  exhausted).
* JavaScript string-or-undefined fields are `Option String`; truthiness of
  such a field (`undefined` and `""` are falsy) is `truthyStr`.
-/

/-- `components["schemas"]["TimestampedTextSegment"]`: a text span with
start/end offsets in seconds. -/
structure TimestampedTextSegment where
  start : Nat
  «end» : Nat
  text : String
deriving DecidableEq, Repr, Inhabited

/-- The slice of `TranscriptionSettings` (from `src/settings`) consumed by
`transcribe.ts`. -/
structure TranscriptionSettings where
  timestamps : Bool
  timestampFormat : String
  embedSummary : Bool
  embedOutline : Bool
  embedKeywords : Bool
  embedAdditionalFunctionality : Bool
  language : String
deriving DecidableEq, Repr, Inhabited

/-- `components["schemas"]["TranscriptSchema"]`: the transcript resource
returned by the Swiftink API (the fields `transcribe.ts` reads). -/
structure TranscriptSchema where
  id : String
  status : Option String
  text : Option String
  text_segments : List TimestampedTextSegment
  summary : Option String
  heading_segments : List TimestampedTextSegment
  keywords : List String
deriving DecidableEq, Repr, Inhabited

/-- JavaScript truthiness of a string-or-undefined value: `undefined` and
the empty string are falsy. -/
def truthyStr : Option String → Bool
  | none => false
  | some s => s ≠ ""

/-- Two-digit zero padding, as produced by the `date-fns` patterns `mm`,
`ss` and `HH` for values below 100. -/
def pad2 (n : Nat) : String :=
  if n < 10 then "0" ++ toString n else toString n

/-- `format(new Date(t*1000 + timezone correction), pattern)` for the two
patterns the program selects: minutes/seconds of the elapsed duration `t`
(seconds), with hours taken modulo 24 (hour-of-day) for `"HH:mm:ss"`. -/
def formatTimestamp (pattern : String) (t : Nat) : String :=
  if pattern = "mm:ss" then
    pad2 (t / 60 % 60) ++ ":" ++ pad2 (t % 60)
  else if pattern = "HH:mm:ss" then
    pad2 (t / 3600 % 24) ++ ":" ++ pad2 (t / 60 % 60) ++ ":" ++ pad2 (t % 60)
  else
    pattern

/-- `segments.forEach(s => maxDuration = Math.max(maxDuration, s.end))`
starting from `maxDuration = 0`. -/
def maxDuration (segments : List TimestampedTextSegment) : Nat :=
  segments.foldl (fun m s => max m s.«end») 0

/-- `const autoFormat = maxDuration < 3600 ? "mm:ss" : "HH:mm:ss"`. -/
def autoFormat (segments : List TimestampedTextSegment) : String :=
  if maxDuration segments < 3600 then "mm:ss" else "HH:mm:ss"

/-- JavaScript `String.prototype.trim()`: strip whitespace from both ends
(executable embedding; Lean's own `String.trim` is extensionally the same
but does not reduce in the kernel). -/
def trimChars (l : List Char) : List Char :=
  ((l.dropWhile Char.isWhitespace).reverse.dropWhile Char.isWhitespace).reverse

/-- `s.trim()` on strings. -/
def trimString (s : String) : String :=
  ⟨trimChars s.data⟩

/-- One rendered line
`` `${start_formatted} - ${end_formatted}: ${segment.text.trim()}\n` ``. -/
def segLine (formatToUse : String) (segment : TimestampedTextSegment) : String :=
  formatTimestamp formatToUse segment.start ++ " - " ++
    formatTimestamp formatToUse segment.«end» ++ ": " ++
    trimString segment.text ++ "\n"

/-- The `renderSegments` closure: a `reduce` over the segments appending one
line each, with `formatToUse = timestampFormat === 'auto' ? autoFormat :
timestampFormat`. -/
def renderSegments (timestampFormat auto : String)
    (segments : List TimestampedTextSegment) : String :=
  segments.foldl
    (fun transcription segment =>
      transcription ++
        segLine (if timestampFormat = "auto" then auto else timestampFormat) segment)
    ""

/-- The value stored in `groupedSegments[intervalStart]`:
`{ start, end, texts }`. -/
structure SegGroup where
  start : Nat
  «end» : Nat
  texts : List String
deriving DecidableEq, Repr, Inhabited

/-- Record lookup `groupedSegments[intervalStart]` on the association list
modelling the record. -/
def lookupGroup (m : List (Nat × SegGroup)) (k : Nat) : Option SegGroup :=
  (m.find? (fun p => p.1 = k)).map Prod.snd

/-- One `forEach` step of the grouping loop:
`intervalStart = Math.floor(segment.start / interval) * interval`; a fresh
key adds `{start, end, texts: [text]}`, an existing key gets
`end = Math.max(end, segment.end)` and `texts.push(text)`. -/
def insertGrouped (interval : Nat) (m : List (Nat × SegGroup))
    (segment : TimestampedTextSegment) : List (Nat × SegGroup) :=
  let intervalStart := segment.start / interval * interval
  match lookupGroup m intervalStart with
  | none =>
      m ++ [(intervalStart, ⟨segment.start, segment.«end», [segment.text]⟩)]
  | some g =>
      m.map (fun p =>
        if p.1 = intervalStart then
          (p.1, ⟨g.start, max g.«end» segment.«end», g.texts ++ [segment.text]⟩)
        else p)

/-- The record `groupedSegments` built by the `forEach` loop. -/
def groupedSegments (interval : Nat)
    (segments : List TimestampedTextSegment) : List (Nat × SegGroup) :=
  segments.foldl (insertGrouped interval) []

/-- `Object.values(groupedSegments)`: the record keys are canonical numeric
strings, which JavaScript enumerates in ascending numeric order. -/
def objectValues (m : List (Nat × SegGroup)) : List SegGroup :=
  (List.insertionSort (· ≤ ·) (m.map Prod.fst)).filterMap (lookupGroup m)

/-- `bucketedSegments`: each group becomes a segment with
`text = group.texts.join("").trim()`. -/
def bucketedSegments (interval : Nat)
    (segments : List TimestampedTextSegment) : List TimestampedTextSegment :=
  (objectValues (groupedSegments interval segments)).map
    (fun g => ⟨g.start, g.«end», trimString (String.join g.texts)⟩)

/-- `segmentsToTimestampedString(segments, timestampFormat, interval = 0)`. -/
def segmentsToTimestampedString (segments : List TimestampedTextSegment)
    (timestampFormat : String) (interval : Nat := 0) : String :=
  let auto := autoFormat segments
  if interval > 0 then
    renderSegments timestampFormat auto (bucketedSegments interval segments)
  else
    renderSegments timestampFormat auto segments

/-- The check `transcript_text.slice(-1) !== "\n"` (true when a newline must
be appended): the accumulated text already ends in a newline. -/
def endsWithNl (s : String) : Bool :=
  s.data.getLast? == some '\n'

/-- `if (transcript_text.slice(-1) !== "\n") transcript_text += "\n"`. -/
def ensureNl (s : String) : String :=
  if endsWithNl s then s else s ++ "\n"

/-- The condition guarding the Summary section:
`settings.embedSummary && transcript.summary && transcript.summary !==
"Insufficient information for a summary."`. -/
def summaryCond (settings : TranscriptionSettings) (transcript : TranscriptSchema) : Bool :=
  settings.embedSummary && truthyStr transcript.summary &&
    (transcript.summary.getD "" != "Insufficient information for a summary.")

/-- The condition guarding the Outline section:
`settings.embedOutline && transcript.heading_segments.length > 0`. -/
def outlineCond (settings : TranscriptionSettings) (transcript : TranscriptSchema) : Bool :=
  settings.embedOutline && decide (0 < transcript.heading_segments.length)

/-- The condition guarding the Keywords section:
`settings.embedKeywords && transcript.keywords.length > 0`. -/
def keywordsCond (settings : TranscriptionSettings) (transcript : TranscriptSchema) : Bool :=
  settings.embedKeywords && decide (0 < transcript.keywords.length)

/-- `formatSwiftinkResults(transcript)`: sequential assembly of the result
document. `transcript.text ? transcript.text : ""` yields the contained
string when present and truthy, `""` otherwise, i.e. `Option.getD "" `. -/
def formatSwiftinkResults (settings : TranscriptionSettings)
    (transcript : TranscriptSchema) : String :=
  let transcript_text := "## Transcript\n"
  let transcript_text := transcript_text ++
    (if settings.timestamps then
      segmentsToTimestampedString transcript.text_segments settings.timestampFormat
    else
      transcript.text.getD "")
  let transcript_text := ensureNl transcript_text
  let transcript_text :=
    if summaryCond settings transcript then
      transcript_text ++ "## Summary\n" ++ transcript.summary.getD ""
    else transcript_text
  let transcript_text := ensureNl transcript_text
  let transcript_text :=
    if outlineCond settings transcript then
      transcript_text ++ "## Outline\n" ++
        segmentsToTimestampedString transcript.heading_segments settings.timestampFormat
    else transcript_text
  let transcript_text := ensureNl transcript_text
  let transcript_text :=
    if keywordsCond settings transcript then
      transcript_text ++ "## Keywords\n" ++ String.intercalate ", " transcript.keywords
    else transcript_text
  let transcript_text := ensureNl transcript_text
  let transcript_text :=
    if settings.embedAdditionalFunctionality then
      transcript_text ++ "[...](obsidian://swiftink_transcript_functions?id=" ++
        transcript.id ++ ")"
    else transcript_text
  transcript_text

/-- The settled state of a promise: `resolved`/`rejected`, or `unsettled`
when no `resolve`/`reject` call is reached on the given inputs. -/
inductive Outcome where
  | resolved (value : String)
  | rejected (msg : String)
  | unsettled
deriving DecidableEq, Repr

/-- `const MAX_TRIES = 100`. -/
def MAX_TRIES : Nat := 100

/-- `let completed_statuses = ["transcribed", "complete"]`, narrowed to
`["complete"]` when any of the summary/outline/keywords embed flags is
set. -/
def completedStatuses (settings : TranscriptionSettings) : List String :=
  if settings.embedSummary || settings.embedOutline || settings.embedKeywords then
    ["complete"]
  else
    ["transcribed", "complete"]

/-- The Swiftink poll loop (`setInterval` body, lines 424-477): each entry
of the list is one `requestUrl` round trip (`Except.error` when the GET
throws, in which case the `await` aborts that tick before `tries++`).
On a response: a truthy status contained in `completed_statuses` resolves
with the formatted transcript; `"failed"` / `"validation_failed"` reject;
otherwise `tries > MAX_TRIES` rejects with the timeout message, else the
loop continues and `tries` is incremented. -/
def pollSwiftink (settings : TranscriptionSettings) :
    List (Except String TranscriptSchema) → Nat → Outcome
  | [], _ => .unsettled
  | .error _ :: rest, tries => pollSwiftink settings rest tries
  | .ok transcript :: rest, tries =>
    if truthyStr transcript.status &&
        (completedStatuses settings).contains (transcript.status.getD "") then
      .resolved (formatSwiftinkResults settings transcript)
    else if transcript.status = some "failed" then
      .rejected "Swiftink failed to transcribe the file"
    else if transcript.status = some "validation_failed" then
      .rejected "Swiftink has detected an invalid file"
    else if tries > MAX_TRIES then
      .rejected "Swiftink took too long to transcribe the file"
    else
      pollSwiftink settings rest (tries + 1)

/-- An event delivered to the tus resumable upload of
`getTranscriptionSwiftink` (lines 290-349). -/
inductive UploadEvent where
  | progress (bytesUploaded bytesTotal : Nat)
  | success
  | uploadError (e : String)
deriving DecidableEq, Repr

/-- How one upload event changes the settled state of `uploadPromise`.
The executor is `new Promise<tus.Upload>((resolve) => ...)`: only
`onProgress` (updates a notice) and `onSuccess` (calls `resolve`) are
registered; the options pass no `onError` and the executor binds no
`reject`, so an upload failure settles nothing. -/
def uploadStep (settled : Option Unit) (ev : UploadEvent) : Option Unit :=
  match settled with
  | some u => some u
  | none =>
    match ev with
    | .progress _ _ => none
    | .success => some ()
    | .uploadError _ => none

/-- `session.session`: the access token and user id read from the Supabase
session. -/
structure SessionInfo where
  access_token : String
  user_id : String
deriving DecidableEq, Repr

/-- The remote interactions of one `getTranscriptionSwiftink` run: the auth
session, the events of the tus upload, the result of the `POST
/transcripts/` call, and the successive poll round trips. -/
structure SwiftinkEnv where
  session : Option SessionInfo
  uploadEvents : List UploadEvent
  createResult : Except String TranscriptSchema
  pollResponses : List (Except String TranscriptSchema)

/-- `getTranscriptionSwiftink(file)` as a function of its remote
interactions: no session rejects immediately; if the upload promise is
never resolved the `await uploadPromise` suspends forever (the `catch`
around it is unreachable, since that promise has no rejection path); a
`requestUrl` failure on transcript creation is returned as
`Promise.reject(error)`; otherwise the poll loop runs with `tries = 0`. -/
def getTranscriptionSwiftink (settings : TranscriptionSettings)
    (env : SwiftinkEnv) : Outcome :=
  match env.session with
  | none => .rejected "No user session found. Please log in and try again."
  | some _ =>
    match env.uploadEvents.foldl uploadStep none with
    | none => .unsettled
    | some _ =>
      match env.createResult with
      | .error e => .rejected e
      | .ok _ => pollSwiftink settings env.pollResponses 0

/-- The parsed `end` of the WhisperASR/speechflow create response
(`{code, taskId, msg}`), or a transport error on the create request. -/
inductive ACreateEvent where
  | response (code : Int) (taskId : String) (msg : String)
  | transportError (e : String)
deriving DecidableEq, Repr

/-- One poll of the speechflow query endpoint: the parsed response
(`{code, result: {sentences: [{s}, ...]}, msg}`) or a transport error. -/
inductive AQueryEvent where
  | response (code : Int) (sentences : List String) (msg : String)
  | transportError (e : String)
deriving DecidableEq, Repr

/-- The remote interactions of one `getTranscriptionWhisperASR` run. -/
structure WhisperEnv where
  createEvent : ACreateEvent
  queryEvents : List AQueryEvent

/-- The `setInterval` query loop of `getTranscriptionWhisperASR` (lines
203-252): code `11000` resolves with the sentence texts joined by a single
space and clears the interval; code `11001` keeps waiting; any other code
rejects with the provider message; a transport error on the query request
rejects with it. -/
def runQueryLoop : List AQueryEvent → Outcome
  | [] => .unsettled
  | .transportError e :: _ => .rejected e
  | .response code sentences msg :: rest =>
    if code = 11000 then .resolved (String.intercalate " " sentences)
    else if code = 11001 then runQueryLoop rest
    else .rejected msg

/-- `getTranscriptionWhisperASR(file)` as a function of its remote
interactions: a create response with code `10000` starts the query loop;
any other code rejects with `responseJSON.msg`; the `'error'` handler on
the create request (lines 256-258) only calls `console.error`, so a
transport error there settles nothing. -/
def getTranscriptionWhisperASR (env : WhisperEnv) : Outcome :=
  match env.createEvent with
  | .transportError _ => .unsettled
  | .response code _ msg =>
    if code = 10000 then runQueryLoop env.queryEvents
    else .rejected msg

/-- The character class `[a-zA-Z0-9.]` of the sanitizing regex. -/
def isAllowedChar (c : Char) : Bool :=
  ('a' ≤ c && c ≤ 'z') || ('A' ≤ c && c ≤ 'Z') || ('0' ≤ c && c ≤ '9') || c == '.'

/-- `file.name.replace(/[^a-zA-Z0-9.]+/g, "-")` as a left-to-right scan:
the regex matches each maximal run of characters outside `[a-zA-Z0-9.]` and
the global replace turns every such run into a single `'-'`. The flag
`inRun` records whether the scanner is inside a run already matched (whose
replacement dash has been emitted). -/
def sanitizeAux (inRun : Bool) : List Char → List Char
  | [] => []
  | c :: rest =>
    if isAllowedChar c then c :: sanitizeAux false rest
    else if inRun then sanitizeAux true rest
    else '-' :: sanitizeAux true rest

/-- `const filename = file.name.replace(/[^a-zA-Z0-9.]+/g, "-")`. -/
def sanitizeFilename (s : String) : String :=
  ⟨sanitizeAux false s.data⟩

/-! ## Helper lemmas -/

/-! ## Further definitions used by the theorems below -/

/-- A poll response that terminates nothing: its status is not a truthy
member of the completed set, and is neither `"failed"` nor
`"validation_failed"`. -/
def isNonTerminal (settings : TranscriptionSettings) (t : TranscriptSchema) : Bool :=
  !(truthyStr t.status && (completedStatuses settings).contains (t.status.getD "")) &&
    !(t.status == some "failed") && !(t.status == some "validation_failed")

/-- A non-terminal poll response (status `"processing"`), used as concrete
input. -/
def pendingTranscript : TranscriptSchema :=
  ⟨"t1", some "processing", none, [], none, [], []⟩

/-- A completed poll response (status `"complete"`), used as concrete
input. -/
def completeTranscript : TranscriptSchema :=
  ⟨"t1", some "complete", some "all done", [], none, [], []⟩

/-- Settings with every flag off, timestamp format `"auto"`. -/
def plainSettings : TranscriptionSettings :=
  ⟨false, "auto", false, false, false, false, "auto"⟩

/-- The body of the Transcript section: rendered timestamped segments when
timestamps are enabled, else the plain text field (empty if absent). -/
def transcriptBody (settings : TranscriptionSettings) (transcript : TranscriptSchema) : String :=
  if settings.timestamps then
    segmentsToTimestampedString transcript.text_segments settings.timestampFormat
  else
    transcript.text.getD ""

/-- The Transcript section as appended (always present), newline-normalized. -/
def sectTranscript (settings : TranscriptionSettings) (transcript : TranscriptSchema) : String :=
  ensureNl ("## Transcript\n" ++ transcriptBody settings transcript)

/-- The Summary section as appended (empty when skipped), newline-normalized. -/
def sectSummary (settings : TranscriptionSettings) (transcript : TranscriptSchema) : String :=
  if summaryCond settings transcript then
    ensureNl ("## Summary\n" ++ transcript.summary.getD "")
  else ""

/-- The Outline section as appended (empty when skipped), newline-normalized. -/
def sectOutline (settings : TranscriptionSettings) (transcript : TranscriptSchema) : String :=
  if outlineCond settings transcript then
    ensureNl ("## Outline\n" ++
      segmentsToTimestampedString transcript.heading_segments settings.timestampFormat)
  else ""

/-- The Keywords section as appended (empty when skipped), newline-normalized. -/
def sectKeywords (settings : TranscriptionSettings) (transcript : TranscriptSchema) : String :=
  if keywordsCond settings transcript then
    ensureNl ("## Keywords\n" ++ String.intercalate ", " transcript.keywords)
  else ""

/-- The trailing deep-link reference (no newline normalization after it). -/
def linkPart (settings : TranscriptionSettings) (transcript : TranscriptSchema) : String :=
  if settings.embedAdditionalFunctionality then
    "[...](obsidian://swiftink_transcript_functions?id=" ++ transcript.id ++ ")"
  else ""

/-- The claim's reading of the sanitizer: each character outside
`[A-Za-z0-9.]` is individually replaced by `'-'` (one dash per character,
length preserved). Stated from the spec's words for comparison with the
source's run-collapsing regex. -/
def specSanitizePerChar (s : String) : String :=
  ⟨s.data.map (fun c => if isAllowedChar c then c else '-')⟩

/-- The grouping key of a segment:
`Math.floor(segment.start / interval) * interval`. -/
def keyOf (interval : Nat) (segment : TimestampedTextSegment) : Nat :=
  segment.start / interval * interval

/-- The members of bucket index `j` (the claim's `floor(start / interval)`),
in encounter order. -/
def bucketMembers (interval j : Nat) (segments : List TimestampedTextSegment) :
    List TimestampedTextSegment :=
  segments.filter (fun s => s.start / interval = j)

/-- The group the claim describes for bucket `j`: first member's start,
maximum of member ends, member texts in encounter order. -/
def specGroupOf (interval j : Nat) (segments : List TimestampedTextSegment) : SegGroup :=
  ⟨((bucketMembers interval j segments).map (·.start)).headD 0,
   ((bucketMembers interval j segments).map (·.«end»)).foldl max 0,
   (bucketMembers interval j segments).map (·.text)⟩

/-- The bucket segment the claim describes for bucket `j`: the group with
its texts concatenated (no separator) and trimmed. -/
def specBucket (interval j : Nat) (segments : List TimestampedTextSegment) :
    TimestampedTextSegment :=
  ⟨(specGroupOf interval j segments).start,
   (specGroupOf interval j segments).«end»,
   trimString (String.join (specGroupOf interval j segments).texts)⟩

/-- The inhabited bucket indices, in ascending order. -/
def specBucketKeys (interval : Nat) (segments : List TimestampedTextSegment) : List Nat :=
  List.insertionSort (· ≤ ·) ((segments.map (fun s => s.start / interval)).dedup)

/-- The bucket list the claim describes: buckets in ascending key order. -/
def specBuckets (interval : Nat) (segments : List TimestampedTextSegment) :
    List TimestampedTextSegment :=
  (specBucketKeys interval segments).map (fun j => specBucket interval j segments)

/-- Aggregation of a bucket's member list, as the grouping loop computes it:
`none` for no members, else start of the first, running max of ends, texts
in order. -/
def groupAgg : List TimestampedTextSegment → Option SegGroup
  | [] => none
  | m :: ms =>
    some ⟨m.start, ms.foldl (fun a s => max a s.«end») m.«end», (m :: ms).map (·.text)⟩

/-- Concrete unsorted segment sample exercising the bucketing. -/
def sampleSegments : List TimestampedTextSegment :=
  [⟨70, 80, "c"⟩, ⟨5, 10, "a "⟩, ⟨20, 95, "b"⟩, ⟨75, 78, "d"⟩]

theorem foldl_append_shift {α : Type} (f : α → String) (l : List α) (acc : String) :
    l.foldl (fun a x => a ++ f x) acc = acc ++ l.foldl (fun a x => a ++ f x) "" := by
  induction l generalizing acc with
  | nil => simp
  | cons x t ih =>
    simp only [List.foldl_cons]
    rw [ih (acc ++ f x), ih (("" : String) ++ f x)]
    simp [String.append_assoc]

theorem foldl_append_eq_join {α : Type} (f : α → String) (l : List α) (acc : String) :
    l.foldl (fun a x => a ++ f x) acc = acc ++ String.join (l.map f) := by
  rw [foldl_append_shift]
  congr 1
  simp [String.join, List.foldl_map]

theorem renderSegments_eq_join (timestampFormat auto : String)
    (segments : List TimestampedTextSegment) :
    renderSegments timestampFormat auto segments =
      String.join (segments.map
        (segLine (if timestampFormat = "auto" then auto else timestampFormat))) := by
  unfold renderSegments
  rw [foldl_append_eq_join]
  simp

/-! ## C6: no-bucketing rendering -/

/-- C6: with `interval = 0` the renderer produces exactly one line per input
segment, in input order, each of the form `"<start> - <end>: <text>"` with
the text trimmed and a trailing newline; the empty sequence renders to the
empty string; the example `[{0,65,"a"}, {70,130,"b"}]` yields the two lines
`"00:00 - 01:05: a"` and `"01:10 - 02:10: b"` under the `mm:ss` format. -/
theorem render_per_segment_lines (segments : List TimestampedTextSegment) (fmt : String) :
    segmentsToTimestampedString segments fmt 0 =
      String.join (segments.map
        (segLine (if fmt = "auto" then autoFormat segments else fmt)))
    ∧ segmentsToTimestampedString [] fmt 0 = ""
    ∧ (∀ f s, segLine f s =
        formatTimestamp f s.start ++ " - " ++ formatTimestamp f s.«end» ++ ": " ++
          trimString s.text ++ "\n")
    ∧ segmentsToTimestampedString [⟨0, 65, "a"⟩, ⟨70, 130, "b"⟩] "mm:ss" 0 =
        "00:00 - 01:05: a\n01:10 - 02:10: b\n" := by
  refine ⟨?_, ?_, ?_, ?_⟩
  · simp [segmentsToTimestampedString, renderSegments_eq_join]
  · simp [segmentsToTimestampedString, renderSegments]
  · intro f s; rfl
  · decide

/-! ## C5: auto format selection -/

/-- C5: with specifier `"auto"` the renderer behaves exactly as with the
pattern selected from the maximum segment end: `"mm:ss"` when that maximum
is below 3600 seconds (in particular for the empty sequence, whose maximum
is 0) and `"HH:mm:ss"` otherwise. -/
theorem auto_format_selection (segments : List TimestampedTextSegment) (interval : Nat) :
    (maxDuration segments < 3600 → autoFormat segments = "mm:ss")
    ∧ (3600 ≤ maxDuration segments → autoFormat segments = "HH:mm:ss")
    ∧ (segments = [] → autoFormat segments = "mm:ss")
    ∧ segmentsToTimestampedString segments "auto" interval =
        segmentsToTimestampedString segments (autoFormat segments) interval := by
  refine ⟨?_, ?_, ?_, ?_⟩
  · intro h; simp [autoFormat, h]
  · intro h; simp [autoFormat, Nat.not_lt.mpr h]
  · rintro rfl; simp [autoFormat, maxDuration]
  · have hne : autoFormat segments ≠ "auto" := by
      unfold autoFormat
      split <;> decide
    simp only [segmentsToTimestampedString, renderSegments, if_neg hne, ite_self]
    simp

/-- Witness for C5 at concrete inputs: maximum end 3599 selects `mm:ss`,
maximum end 3600 selects `HH:mm:ss`, the empty sequence selects `mm:ss`. -/
theorem auto_format_selection_witness :
    autoFormat [⟨3500, 3599, "x"⟩] = "mm:ss"
    ∧ autoFormat [⟨3500, 3600, "x"⟩] = "HH:mm:ss"
    ∧ autoFormat [] = "mm:ss" :=
  ⟨(auto_format_selection [⟨3500, 3599, "x"⟩] 0).1 (by decide),
   (auto_format_selection [⟨3500, 3600, "x"⟩] 0).2.1 (by decide),
   (auto_format_selection [] 0).2.2.1 rfl⟩

/-! ## C9: Backend A create gate -/

/-- C9: a create response with code `10000` starts the polling loop (the
outcome is that of the query loop over the poll responses); any other code
rejects immediately with the provider-supplied `msg`, for every sequence of
query events — i.e. without ever consulting a poll response. -/
theorem whisper_create_gate (code : Int) (taskId msg : String)
    (qs : List AQueryEvent) :
    (code = 10000 →
      getTranscriptionWhisperASR ⟨.response code taskId msg, qs⟩ = runQueryLoop qs)
    ∧ (code ≠ 10000 →
      getTranscriptionWhisperASR ⟨.response code taskId msg, qs⟩ = .rejected msg) := by
  constructor
  · intro h; simp [getTranscriptionWhisperASR, h]
  · intro h; simp [getTranscriptionWhisperASR, h]

/-- Witness for C9: code `10000` polls (here one successful query resolving
with the space-joined sentences), code `9999` rejects with the provider
message. -/
theorem whisper_create_gate_witness :
    getTranscriptionWhisperASR
        ⟨.response 10000 "task1" "", [.response 11000 ["hello", "world"] ""]⟩ =
      .resolved "hello world"
    ∧ getTranscriptionWhisperASR
        ⟨.response 9999 "task1" "quota exceeded", [.response 11000 ["hello"] ""]⟩ =
      .rejected "quota exceeded" :=
  ⟨by rw [(whisper_create_gate 10000 "task1" "" [.response 11000 ["hello", "world"] ""]).1 rfl]
      decide,
   (whisper_create_gate 9999 "task1" "quota exceeded" [.response 11000 ["hello"] ""]).2
      (by decide)⟩

/-! ## Poll-loop lemmas (Backend B) -/

theorem pollSwiftink_nonterminal_step (settings : TranscriptionSettings)
    (t : TranscriptSchema) (rest : List (Except String TranscriptSchema))
    (tries : Nat) (hnt : isNonTerminal settings t = true) (hc : tries ≤ MAX_TRIES) :
    pollSwiftink settings (.ok t :: rest) tries = pollSwiftink settings rest (tries + 1) := by
  simp only [isNonTerminal, Bool.and_eq_true, Bool.not_eq_true', beq_eq_false_iff_ne,
    ne_eq] at hnt
  obtain ⟨⟨h1, h2⟩, h3⟩ := hnt
  simp only [pollSwiftink, h1, if_false, if_neg h2, if_neg h3,
    if_neg (Nat.not_lt.mpr hc), Bool.false_eq_true]

theorem pollSwiftink_nonterminal_run (settings : TranscriptionSettings)
    (rs : List TranscriptSchema) (rest : List (Except String TranscriptSchema))
    (tries : Nat) (hnt : ∀ r ∈ rs, isNonTerminal settings r = true)
    (hc : tries + rs.length ≤ MAX_TRIES + 1) :
    pollSwiftink settings (rs.map Except.ok ++ rest) tries =
      pollSwiftink settings rest (tries + rs.length) := by
  induction rs generalizing tries with
  | nil => simp
  | cons r rs ih =>
    simp only [List.map_cons, List.cons_append, List.length_cons]
    rw [pollSwiftink_nonterminal_step settings r _ tries (hnt r (by simp)) (by
      simp only [List.length_cons] at hc; omega)]
    rw [ih (tries + 1) (fun x hx => hnt x (List.mem_cons_of_mem r hx))
      (by simp only [List.length_cons] at hc; omega)]
    congr 1
    omega

/-! ## C2: completed-status narrowing -/

/-- C2: the completed set is `{"transcribed","complete"}` when none of the
summary/outline/keywords embed flags is set and `{"complete"}` when at
least one is; in the narrowed case a poll returning `"transcribed"` does
not terminate the loop (it continues with the next try), while in the
plain case it resolves. -/
theorem completed_statuses_narrowing (settings : TranscriptionSettings)
    (t : TranscriptSchema) (rest : List (Except String TranscriptSchema)) (tries : Nat) :
    ((settings.embedSummary || settings.embedOutline || settings.embedKeywords) = false →
      completedStatuses settings = ["transcribed", "complete"])
    ∧ ((settings.embedSummary || settings.embedOutline || settings.embedKeywords) = true →
      completedStatuses settings = ["complete"])
    ∧ ((settings.embedSummary || settings.embedOutline || settings.embedKeywords) = true →
      t.status = some "transcribed" → tries ≤ MAX_TRIES →
      pollSwiftink settings (.ok t :: rest) tries = pollSwiftink settings rest (tries + 1))
    ∧ ((settings.embedSummary || settings.embedOutline || settings.embedKeywords) = false →
      t.status = some "transcribed" →
      pollSwiftink settings (.ok t :: rest) tries =
        .resolved (formatSwiftinkResults settings t)) := by
  refine ⟨?_, ?_, ?_, ?_⟩
  · intro h; simp [completedStatuses, h]
  · intro h; simp [completedStatuses, h]
  · intro h hs hc
    apply pollSwiftink_nonterminal_step settings t rest tries _ hc
    simp [isNonTerminal, completedStatuses, h, hs, truthyStr]
  · intro h hs
    simp [pollSwiftink, completedStatuses, h, hs, truthyStr]

/-- Witness for C2 at concrete inputs: with `embedSummary` set, a
`"transcribed"` poll continues; with no flags set, it resolves. -/
theorem completed_statuses_narrowing_witness :
    completedStatuses ⟨false, "auto", true, false, false, false, "auto"⟩ = ["complete"]
    ∧ pollSwiftink ⟨false, "auto", true, false, false, false, "auto"⟩
        [.ok ⟨"t1", some "transcribed", none, [], none, [], []⟩] 0 =
      pollSwiftink ⟨false, "auto", true, false, false, false, "auto"⟩ [] 1
    ∧ completedStatuses plainSettings = ["transcribed", "complete"]
    ∧ pollSwiftink plainSettings
        [.ok ⟨"t1", some "transcribed", none, [], none, [], []⟩] 0 =
      .resolved (formatSwiftinkResults plainSettings
        ⟨"t1", some "transcribed", none, [], none, [], []⟩) :=
  ⟨(completed_statuses_narrowing ⟨false, "auto", true, false, false, false, "auto"⟩
      pendingTranscript [] 0).2.1 rfl,
   (completed_statuses_narrowing ⟨false, "auto", true, false, false, false, "auto"⟩
      ⟨"t1", some "transcribed", none, [], none, [], []⟩ [] 0).2.2.1 rfl rfl (by decide),
   (completed_statuses_narrowing plainSettings pendingTranscript [] 0).1 rfl,
   (completed_statuses_narrowing plainSettings
      ⟨"t1", some "transcribed", none, [], none, [], []⟩ [] 0).2.2.2 rfl rfl⟩

theorem pollSwiftink_timeout_step (settings : TranscriptionSettings)
    (t : TranscriptSchema) (rest : List (Except String TranscriptSchema))
    (tries : Nat) (hnt : isNonTerminal settings t = true) (hc : MAX_TRIES < tries) :
    pollSwiftink settings (.ok t :: rest) tries =
      .rejected "Swiftink took too long to transcribe the file" := by
  simp only [isNonTerminal, Bool.and_eq_true, Bool.not_eq_true', beq_eq_false_iff_ne,
    ne_eq] at hnt
  obtain ⟨⟨h1, h2⟩, h3⟩ := hnt
  simp only [pollSwiftink, h1, if_neg h2, if_neg h3, if_pos hc, Bool.false_eq_true,
    if_false]

theorem pollSwiftink_complete_step (settings : TranscriptionSettings)
    (t : TranscriptSchema) (rest : List (Except String TranscriptSchema))
    (tries : Nat) (hs : t.status = some "complete") :
    pollSwiftink settings (.ok t :: rest) tries =
      .resolved (formatSwiftinkResults settings t) := by
  have hmem : "complete" ∈ completedStatuses settings := by
    simp only [completedStatuses]
    split <;> decide
  simp [pollSwiftink, hs, truthyStr, hmem]

/-! ## C1: the poll-attempt cap -/

set_option maxRecDepth 40000 in
/-- Counterexample to C1 as stated: 100 non-terminal polls followed by a
101st still-non-terminal poll do NOT produce the timeout rejection — after
those 101 ticks the loop is still pending (`tries` is only 101 and the
code times out on `tries > MAX_TRIES`, i.e. on the 102nd non-terminal
response). -/
theorem swiftink_poll_cap_counterexample :
    pollSwiftink plainSettings (List.replicate 101 (.ok pendingTranscript)) 0 =
      .unsettled := by
  decide

/-- C1 amended: the timeout fires one poll later than claimed — 101
non-terminal polls followed by a 102nd still-non-terminal poll produce the
rejection `"Swiftink took too long to transcribe the file"`; 99
non-terminal polls followed by a `"complete"` status still resolve
successfully (with the formatted transcript). -/
theorem swiftink_poll_cap_amended (settings : TranscriptionSettings)
    (rs rs₂ : List TranscriptSchema) (t tc : TranscriptSchema) :
    (rs.length = 101 → (∀ r ∈ rs, isNonTerminal settings r = true) →
      isNonTerminal settings t = true →
      pollSwiftink settings (rs.map Except.ok ++ [Except.ok t]) 0 =
        .rejected "Swiftink took too long to transcribe the file")
    ∧ (rs₂.length = 99 → (∀ r ∈ rs₂, isNonTerminal settings r = true) →
      tc.status = some "complete" →
      pollSwiftink settings (rs₂.map Except.ok ++ [Except.ok tc]) 0 =
        .resolved (formatSwiftinkResults settings tc)) := by
  constructor
  · intro hlen hnt ht
    rw [pollSwiftink_nonterminal_run settings rs [Except.ok t] 0 hnt
      (by rw [hlen]; decide)]
    rw [hlen]
    exact pollSwiftink_timeout_step settings t [] 101 ht (by decide)
  · intro hlen hnt htc
    rw [pollSwiftink_nonterminal_run settings rs₂ [Except.ok tc] 0 hnt
      (by rw [hlen]; decide)]
    exact pollSwiftink_complete_step settings tc [] _ htc

set_option maxRecDepth 40000 in
/-- Witness for C1 (amended) at concrete inputs: 101 pending responses and
a 102nd pending response time out; 99 pending responses and a
`"complete"` response resolve. -/
theorem swiftink_poll_cap_witness :
    pollSwiftink plainSettings
        ((List.replicate 101 pendingTranscript).map Except.ok ++
          [Except.ok pendingTranscript]) 0 =
      .rejected "Swiftink took too long to transcribe the file"
    ∧ pollSwiftink plainSettings
        ((List.replicate 99 pendingTranscript).map Except.ok ++
          [Except.ok completeTranscript]) 0 =
      .resolved (formatSwiftinkResults plainSettings completeTranscript) :=
  ⟨(swiftink_poll_cap_amended plainSettings (List.replicate 101 pendingTranscript)
      (List.replicate 99 pendingTranscript) pendingTranscript completeTranscript).1
      (by decide)
      (fun r hr => by rw [(List.mem_replicate.mp hr).2]; decide)
      (by decide),
   (swiftink_poll_cap_amended plainSettings (List.replicate 101 pendingTranscript)
      (List.replicate 99 pendingTranscript) pendingTranscript completeTranscript).2
      (by decide)
      (fun r hr => by rw [(List.mem_replicate.mp hr).2]; decide)
      (by decide)⟩

/-! ## C3: failure propagation -/

/-- Counterexample to C3 as stated: a transport error on Backend A's create
request is an error path on which the returned promise does NOT settle —
the `'error'` handler only logs, so the outcome is `unsettled`, not a
rejection. -/
theorem failure_propagation_counterexample :
    getTranscriptionWhisperASR ⟨.transportError "ECONNRESET", []⟩ = .unsettled := by
  decide

/-- C3 amended: every provider-reported failure rejects — Backend A create
responses with code ≠ 10000, Backend A query responses with a terminal
error code, Backend A query transport errors, Backend B missing session,
Backend B transcript-creation errors, and Backend B poll statuses
`"failed"`, `"validation_failed"` and the attempt-cap timeout. However,
three transport-level failures leave the promise unsettled instead of
rejecting: a transport error on Backend A's create request (its handler
only logs), a failed Backend B upload (the upload promise registers no
rejection callback, so the `await` never completes), and a transport error
on a Backend B poll request (the thrown rejection aborts that tick without
settling anything, and polling continues). -/
theorem failure_propagation_amended (settings : TranscriptionSettings)
    (si : SessionInfo) (evs : List UploadEvent)
    (cr : Except String TranscriptSchema)
    (pr rest : List (Except String TranscriptSchema))
    (code : Int) (taskId msg e : String) (qs : List AQueryEvent)
    (sentences : List String) (t : TranscriptSchema) (tries : Nat) :
    (code ≠ 10000 →
      getTranscriptionWhisperASR ⟨.response code taskId msg, qs⟩ = .rejected msg)
    ∧ (code ≠ 11000 → code ≠ 11001 →
      runQueryLoop (.response code sentences msg :: qs) = .rejected msg)
    ∧ runQueryLoop (.transportError e :: qs) = .rejected e
    ∧ getTranscriptionWhisperASR ⟨.transportError e, qs⟩ = .unsettled
    ∧ getTranscriptionSwiftink settings ⟨none, evs, cr, pr⟩ =
        .rejected "No user session found. Please log in and try again."
    ∧ (evs.foldl uploadStep none = none →
      getTranscriptionSwiftink settings ⟨some si, evs, cr, pr⟩ = .unsettled)
    ∧ (∀ e', uploadStep none (.uploadError e') = none)
    ∧ (evs.foldl uploadStep none ≠ none →
      getTranscriptionSwiftink settings ⟨some si, evs, .error e, pr⟩ = .rejected e)
    ∧ (t.status = some "failed" →
      pollSwiftink settings (.ok t :: rest) tries =
        .rejected "Swiftink failed to transcribe the file")
    ∧ (t.status = some "validation_failed" →
      pollSwiftink settings (.ok t :: rest) tries =
        .rejected "Swiftink has detected an invalid file")
    ∧ (isNonTerminal settings t = true → MAX_TRIES < tries →
      pollSwiftink settings (.ok t :: rest) tries =
        .rejected "Swiftink took too long to transcribe the file")
    ∧ pollSwiftink settings (.error e :: rest) tries =
        pollSwiftink settings rest tries := by
  have hnotin : ∀ s, s ≠ "transcribed" → s ≠ "complete" →
      s ∉ completedStatuses settings := by
    intro s h1 h2
    simp only [completedStatuses]
    split <;> simp [h1, h2]
  refine ⟨?_, ?_, ?_, ?_, ?_, ?_, ?_, ?_, ?_, ?_, ?_, ?_⟩
  · intro h; simp [getTranscriptionWhisperASR, h]
  · intro h1 h2; simp [runQueryLoop, h1, h2]
  · rfl
  · rfl
  · rfl
  · intro h; simp [getTranscriptionSwiftink, h]
  · intro e'; rfl
  · intro h
    simp only [getTranscriptionSwiftink]
    cases hfold : evs.foldl uploadStep none with
    | none => exact absurd hfold h
    | some u => rfl
  · intro hs
    simp [pollSwiftink, hs, truthyStr, hnotin "failed" (by decide) (by decide)]
  · intro hs
    simp [pollSwiftink, hs, truthyStr, hnotin "validation_failed" (by decide) (by decide)]
  · intro hnt hc; exact pollSwiftink_timeout_step settings t rest tries hnt hc
  · rfl

/-- Witness for C3 (amended) at concrete inputs, one per error path. -/
theorem failure_propagation_witness :
    getTranscriptionWhisperASR ⟨.response 9001 "t" "bad request", []⟩ =
      .rejected "bad request"
    ∧ runQueryLoop [.response 11002 [] "decode failed"] = .rejected "decode failed"
    ∧ runQueryLoop [.transportError "ETIMEDOUT"] = .rejected "ETIMEDOUT"
    ∧ getTranscriptionWhisperASR ⟨.transportError "ETIMEDOUT", []⟩ = .unsettled
    ∧ getTranscriptionSwiftink plainSettings
        ⟨none, [], .ok pendingTranscript, []⟩ =
      .rejected "No user session found. Please log in and try again."
    ∧ getTranscriptionSwiftink plainSettings
        ⟨some ⟨"tok", "uid"⟩, [.uploadError "503"], .ok pendingTranscript, []⟩ =
      .unsettled
    ∧ getTranscriptionSwiftink plainSettings
        ⟨some ⟨"tok", "uid"⟩, [.success], .error "401 unauthorized", []⟩ =
      .rejected "401 unauthorized"
    ∧ pollSwiftink plainSettings
        [.ok ⟨"t1", some "failed", none, [], none, [], []⟩] 0 =
      .rejected "Swiftink failed to transcribe the file"
    ∧ pollSwiftink plainSettings
        [.ok ⟨"t1", some "validation_failed", none, [], none, [], []⟩] 0 =
      .rejected "Swiftink has detected an invalid file"
    ∧ pollSwiftink plainSettings [.ok pendingTranscript] 101 =
      .rejected "Swiftink took too long to transcribe the file"
    ∧ pollSwiftink plainSettings [.error "ECONNRESET", .ok pendingTranscript] 0 =
      pollSwiftink plainSettings [.ok pendingTranscript] 0 := by
  have h := failure_propagation_amended plainSettings ⟨"tok", "uid"⟩
    [.uploadError "503"] (.ok pendingTranscript) [] [.ok pendingTranscript]
    9001 "t" "bad request" "ETIMEDOUT" [] [] pendingTranscript 101
  refine ⟨h.1 (by decide), ?_, h.2.2.1, h.2.2.2.1, ?_, ?_, ?_, ?_, ?_, ?_, ?_⟩
  · exact (failure_propagation_amended plainSettings ⟨"tok", "uid"⟩
      [.uploadError "503"] (.ok pendingTranscript) [] []
      11002 "t" "decode failed" "x" [] [] pendingTranscript 0).2.1
      (by decide) (by decide)
  · exact (failure_propagation_amended plainSettings ⟨"tok", "uid"⟩
      [] (.ok pendingTranscript) [] [] 0 "t" "m" "x" [] [] pendingTranscript 0).2.2.2.2.1
  · exact h.2.2.2.2.2.1 (by decide)
  · exact (failure_propagation_amended plainSettings ⟨"tok", "uid"⟩
      [.success] (.ok pendingTranscript) [] [] 0 "t" "m" "401 unauthorized" [] []
      pendingTranscript 0).2.2.2.2.2.2.2.1 (by decide)
  · exact (failure_propagation_amended plainSettings ⟨"tok", "uid"⟩
      [] (.ok pendingTranscript) [] [] 0 "t" "m" "x" [] []
      ⟨"t1", some "failed", none, [], none, [], []⟩ 0).2.2.2.2.2.2.2.2.1 rfl
  · exact (failure_propagation_amended plainSettings ⟨"tok", "uid"⟩
      [] (.ok pendingTranscript) [] [] 0 "t" "m" "x" [] []
      ⟨"t1", some "validation_failed", none, [], none, [], []⟩ 0).2.2.2.2.2.2.2.2.2.1 rfl
  · exact h.2.2.2.2.2.2.2.2.2.2.1 (by decide) (by decide)
  · exact (failure_propagation_amended plainSettings ⟨"tok", "uid"⟩
      [] (.ok pendingTranscript) [] [.ok pendingTranscript] 0 "t" "m" "ECONNRESET" [] []
      pendingTranscript 0).2.2.2.2.2.2.2.2.2.2.2

/-! ## Section decomposition of the result formatter (C7, C8) -/

theorem str_append_ne_left (a b : String) (ha : a ≠ "") : a ++ b ≠ "" := by
  intro h
  apply ha
  have hd := congrArg String.data h
  rw [String.data_append] at hd
  rcases List.append_eq_nil.mp hd with ⟨h1, _⟩
  exact String.ext h1

theorem endsWithNl_append (a b : String) (hb : b ≠ "") :
    endsWithNl (a ++ b) = endsWithNl b := by
  have hbd : b.data ≠ [] := fun h => hb (String.ext h)
  simp only [endsWithNl, String.data_append, List.getLast?_append]
  cases hgl : b.data.getLast? with
  | none => exact absurd (List.getLast?_eq_none_iff.mp hgl) hbd
  | some c => simp [Option.or]

theorem ensureNl_append (a b : String) (hb : b ≠ "") :
    ensureNl (a ++ b) = a ++ ensureNl b := by
  simp only [ensureNl, endsWithNl_append a b hb]
  split
  · rfl
  · rw [String.append_assoc]

theorem ensureNl_ne_empty (s : String) : ensureNl s ≠ "" := by
  simp only [ensureNl]
  split
  · rename_i h
    simp only [endsWithNl, beq_iff_eq] at h
    intro he
    rw [he] at h
    simp at h
  · intro he
    have hd := congrArg String.data he
    rw [String.data_append] at hd
    rcases List.append_eq_nil.mp hd with ⟨_, h2⟩
    simp at h2

theorem endsWithNl_ensureNl (s : String) : endsWithNl (ensureNl s) = true := by
  simp only [ensureNl]
  split
  · assumption
  · rw [endsWithNl_append s "\n" (by decide)]
    decide

/-- One normalization stage of the formatter: appending an (optional)
nonempty piece to an accumulated text that already ends in a newline, then
ensuring a trailing newline, splits off the normalized piece; and the
result again ends in a newline. -/
theorem stage_append (acc piece : String) (c : Bool)
    (hacc : endsWithNl acc = true) (hp : piece ≠ "") :
    ensureNl (if c then acc ++ piece else acc) =
      acc ++ (if c then ensureNl piece else "")
    ∧ endsWithNl (acc ++ (if c then ensureNl piece else "")) = true := by
  cases c with
  | false =>
    constructor
    · simp [ensureNl, hacc, String.append_empty]
    · simp only [Bool.false_eq_true, if_false, String.append_empty]
      exact hacc
  | true =>
    simp only [if_true]
    constructor
    · exact ensureNl_append acc piece hp
    · rw [endsWithNl_append acc (ensureNl piece) (ensureNl_ne_empty piece)]
      exact endsWithNl_ensureNl piece

/-- The formatter output decomposes into the five parts, in fixed order. -/
theorem format_decomp (settings : TranscriptionSettings) (transcript : TranscriptSchema) :
    formatSwiftinkResults settings transcript =
      sectTranscript settings transcript ++ sectSummary settings transcript ++
        sectOutline settings transcript ++ sectKeywords settings transcript ++
        linkPart settings transcript := by
  have hT : endsWithNl (sectTranscript settings transcript) = true :=
    endsWithNl_ensureNl _
  have hpS : ("## Summary\n" ++ transcript.summary.getD "" : String) ≠ "" :=
    str_append_ne_left _ _ (by decide)
  have hpO : ("## Outline\n" ++
      segmentsToTimestampedString transcript.heading_segments settings.timestampFormat :
      String) ≠ "" :=
    str_append_ne_left _ _ (by decide)
  have hpK : ("## Keywords\n" ++ String.intercalate ", " transcript.keywords : String) ≠ "" :=
    str_append_ne_left _ _ (by decide)
  have e2 := stage_append (sectTranscript settings transcript)
    ("## Summary\n" ++ transcript.summary.getD "") (summaryCond settings transcript) hT hpS
  rw [← String.append_assoc] at e2
  have e2' : ensureNl (if summaryCond settings transcript then
        sectTranscript settings transcript ++ "## Summary\n" ++ transcript.summary.getD ""
      else sectTranscript settings transcript) =
      sectTranscript settings transcript ++ sectSummary settings transcript := e2.1
  have hS : endsWithNl (sectTranscript settings transcript ++
      sectSummary settings transcript) = true := e2.2
  have e3 := stage_append
    (sectTranscript settings transcript ++ sectSummary settings transcript)
    ("## Outline\n" ++
      segmentsToTimestampedString transcript.heading_segments settings.timestampFormat)
    (outlineCond settings transcript) hS hpO
  rw [← String.append_assoc] at e3
  have e3' : ensureNl (if outlineCond settings transcript then
        sectTranscript settings transcript ++ sectSummary settings transcript ++
          "## Outline\n" ++
          segmentsToTimestampedString transcript.heading_segments settings.timestampFormat
      else sectTranscript settings transcript ++ sectSummary settings transcript) =
      sectTranscript settings transcript ++ sectSummary settings transcript ++
        sectOutline settings transcript := e3.1
  have hO : endsWithNl (sectTranscript settings transcript ++
      sectSummary settings transcript ++ sectOutline settings transcript) = true := e3.2
  have e4 := stage_append
    (sectTranscript settings transcript ++ sectSummary settings transcript ++
      sectOutline settings transcript)
    ("## Keywords\n" ++ String.intercalate ", " transcript.keywords)
    (keywordsCond settings transcript) hO hpK
  rw [← String.append_assoc] at e4
  have e4' : ensureNl (if keywordsCond settings transcript then
        sectTranscript settings transcript ++ sectSummary settings transcript ++
          sectOutline settings transcript ++ "## Keywords\n" ++
          String.intercalate ", " transcript.keywords
      else sectTranscript settings transcript ++ sectSummary settings transcript ++
        sectOutline settings transcript) =
      sectTranscript settings transcript ++ sectSummary settings transcript ++
        sectOutline settings transcript ++ sectKeywords settings transcript := e4.1
  show (let transcript_text := "## Transcript\n"
    let transcript_text := transcript_text ++
      (if settings.timestamps then
        segmentsToTimestampedString transcript.text_segments settings.timestampFormat
      else
        transcript.text.getD "")
    let transcript_text := ensureNl transcript_text
    let transcript_text :=
      if summaryCond settings transcript then
        transcript_text ++ "## Summary\n" ++ transcript.summary.getD ""
      else transcript_text
    let transcript_text := ensureNl transcript_text
    let transcript_text :=
      if outlineCond settings transcript then
        transcript_text ++ "## Outline\n" ++
          segmentsToTimestampedString transcript.heading_segments settings.timestampFormat
      else transcript_text
    let transcript_text := ensureNl transcript_text
    let transcript_text :=
      if keywordsCond settings transcript then
        transcript_text ++ "## Keywords\n" ++ String.intercalate ", " transcript.keywords
      else transcript_text
    let transcript_text := ensureNl transcript_text
    let transcript_text :=
      if settings.embedAdditionalFunctionality then
        transcript_text ++ "[...](obsidian://swiftink_transcript_functions?id=" ++
          transcript.id ++ ")"
      else transcript_text
    transcript_text) = _
  simp only []
  rw [show ensureNl ("## Transcript\n" ++
      (if settings.timestamps then
        segmentsToTimestampedString transcript.text_segments settings.timestampFormat
      else
        transcript.text.getD "")) = sectTranscript settings transcript from rfl]
  rw [e2', e3', e4']
  cases hE : settings.embedAdditionalFunctionality with
  | false => simp [linkPart, hE, String.append_empty]
  | true => simp [linkPart, hE, String.append_assoc]

/-! ## C7: summary gating -/

/-- C7: the output decomposes with a Summary section that is nonempty
exactly when the summary embed flag is set, a summary value is present
(truthy), and that value is not the sentinel
`"Insufficient information for a summary."`; in particular a sentinel
summary is never included even when the flag is true. -/
theorem summary_gating (settings : TranscriptionSettings) (transcript : TranscriptSchema) :
    formatSwiftinkResults settings transcript =
      sectTranscript settings transcript ++ sectSummary settings transcript ++
        sectOutline settings transcript ++ sectKeywords settings transcript ++
        linkPart settings transcript
    ∧ (sectSummary settings transcript ≠ "" ↔
        settings.embedSummary = true ∧ ∃ s, transcript.summary = some s ∧ s ≠ "" ∧
          s ≠ "Insufficient information for a summary.")
    ∧ (transcript.summary = some "Insufficient information for a summary." →
        sectSummary settings transcript = "") := by
  have hiff : summaryCond settings transcript = true ↔
      (settings.embedSummary = true ∧ ∃ s, transcript.summary = some s ∧ s ≠ "" ∧
        s ≠ "Insufficient information for a summary.") := by
    unfold summaryCond
    cases ht : transcript.summary with
    | none => simp [truthyStr, ht]
    | some s =>
      simp [truthyStr, ht, bne_iff_ne, Bool.and_eq_true, decide_eq_true_eq, and_assoc]
  refine ⟨format_decomp settings transcript, ?_, ?_⟩
  · unfold sectSummary
    constructor
    · intro h
      cases hc : summaryCond settings transcript with
      | false => rw [hc] at h; simp at h
      | true => exact hiff.mp hc
    · intro h
      rw [if_pos (hiff.mpr h)]
      exact ensureNl_ne_empty _
  · intro hsum
    have hc : summaryCond settings transcript = false := by
      unfold summaryCond
      rw [hsum]
      simp [truthyStr]
    unfold sectSummary
    simp [hc]

/-- Witness for C7 at concrete inputs: with the flag set, a sentinel
summary yields an empty Summary section while a real summary yields a
nonempty one. -/
theorem summary_gating_witness :
    sectSummary ⟨false, "auto", true, false, false, false, "auto"⟩
        ⟨"x", some "complete", some "body", [],
          some "Insufficient information for a summary.", [], []⟩ = ""
    ∧ sectSummary ⟨false, "auto", true, false, false, false, "auto"⟩
        ⟨"x", some "complete", some "body", [], some "A real summary.", [], []⟩ ≠ "" :=
  ⟨(summary_gating ⟨false, "auto", true, false, false, false, "auto"⟩
      ⟨"x", some "complete", some "body", [],
        some "Insufficient information for a summary.", [], []⟩).2.2 rfl,
   (summary_gating ⟨false, "auto", true, false, false, false, "auto"⟩
      ⟨"x", some "complete", some "body", [], some "A real summary.", [], []⟩).2.1.mpr
      ⟨rfl, "A real summary.", rfl, by decide, by decide⟩⟩

/-! ## C8: section order and trailing newlines -/

/-- Counterexample to C8 as stated: with a summary that itself ends in two
newlines, the accumulated text after the Summary section ends in TWO line
breaks, not exactly one — the formatter only appends a newline when none is
present, it never collapses existing ones. -/
theorem format_trailing_newline_counterexample :
    formatSwiftinkResults ⟨false, "auto", true, false, false, false, "auto"⟩
        ⟨"x", some "complete", none, [], some "S\n\n", [], []⟩ =
      "## Transcript\n## Summary\nS\n\n"
    ∧ (formatSwiftinkResults ⟨false, "auto", true, false, false, false, "auto"⟩
        ⟨"x", some "complete", none, [], some "S\n\n", [], []⟩).data.reverse.take 2 =
      ['\n', '\n'] := by
  constructor
  · decide
  · decide

/-- C8 amended: the output is the Transcript section (always present, body
as claimed) followed by any included Summary, Outline, Keywords sections in
that fixed order (then the optional deep link); after appending each
section the accumulated text ends in AT LEAST one line break — exactly one
is appended when none is present, but a section body already ending in line
breaks is left as is. -/
theorem format_structure_amended (settings : TranscriptionSettings)
    (transcript : TranscriptSchema) :
    formatSwiftinkResults settings transcript =
      sectTranscript settings transcript ++ sectSummary settings transcript ++
        sectOutline settings transcript ++ sectKeywords settings transcript ++
        linkPart settings transcript
    ∧ endsWithNl (sectTranscript settings transcript) = true
    ∧ (sectSummary settings transcript = "" ∨
        endsWithNl (sectSummary settings transcript) = true)
    ∧ (sectOutline settings transcript = "" ∨
        endsWithNl (sectOutline settings transcript) = true)
    ∧ (sectKeywords settings transcript = "" ∨
        endsWithNl (sectKeywords settings transcript) = true)
    ∧ (∀ s : String, endsWithNl s = true → ensureNl s = s)
    ∧ (∀ s : String, endsWithNl s = false → ensureNl s = s ++ "\n") := by
  refine ⟨format_decomp settings transcript, endsWithNl_ensureNl _, ?_, ?_, ?_, ?_, ?_⟩
  · unfold sectSummary
    cases hc : summaryCond settings transcript with
    | false => left; simp
    | true => right; simp only [if_true]; exact endsWithNl_ensureNl _
  · unfold sectOutline
    cases hc : outlineCond settings transcript with
    | false => left; simp
    | true => right; simp only [if_true]; exact endsWithNl_ensureNl _
  · unfold sectKeywords
    cases hc : keywordsCond settings transcript with
    | false => left; simp
    | true => right; simp only [if_true]; exact endsWithNl_ensureNl _
  · intro s h; simp [ensureNl, h]
  · intro s h; simp [ensureNl, h]

/-- Witness for C8 (amended): applied at a concrete transcript, and the two
`ensureNl` facts applied at concrete strings. -/
theorem format_structure_amended_witness :
    formatSwiftinkResults plainSettings completeTranscript =
      sectTranscript plainSettings completeTranscript ++
        sectSummary plainSettings completeTranscript ++
        sectOutline plainSettings completeTranscript ++
        sectKeywords plainSettings completeTranscript ++
        linkPart plainSettings completeTranscript
    ∧ ensureNl "x\n" = "x\n"
    ∧ ensureNl "x" = "x" ++ "\n" :=
  ⟨(format_structure_amended plainSettings completeTranscript).1,
   (format_structure_amended plainSettings completeTranscript).2.2.2.2.2.1 "x\n"
      (by decide),
   (format_structure_amended plainSettings completeTranscript).2.2.2.2.2.2 "x"
      (by decide)⟩

/-! ## C10: filename sanitization -/

/-- Counterexample to C10 as stated: on `"a??b"` the code produces `"a-b"`
(the regex quantifier `+` collapses the whole run `"??"` into one dash),
not the per-character `"a--b"` the claim describes. -/
theorem sanitize_filename_counterexample :
    sanitizeFilename "a??b" = "a-b"
    ∧ specSanitizePerChar "a??b" = "a--b"
    ∧ sanitizeFilename "a??b" ≠ specSanitizePerChar "a??b" := by
  refine ⟨by decide, by decide, by decide⟩

theorem sanitizeAux_cons_allowed (b : Bool) (a : Char) (rest : List Char)
    (ha : isAllowedChar a = true) :
    sanitizeAux b (a :: rest) = a :: sanitizeAux false rest := by
  simp [sanitizeAux, ha]

theorem sanitizeAux_cons_run (a : Char) (rest : List Char)
    (ha : ¬isAllowedChar a = true) :
    sanitizeAux true (a :: rest) = sanitizeAux true rest := by
  simp [sanitizeAux, ha]

theorem sanitizeAux_cons_start (a : Char) (rest : List Char)
    (ha : ¬isAllowedChar a = true) :
    sanitizeAux false (a :: rest) = '-' :: sanitizeAux true rest := by
  simp [sanitizeAux, ha]

theorem head_sanitizeAux_true (l : List Char) (c : Char)
    (h : (sanitizeAux true l).head? = some c) : isAllowedChar c = true := by
  induction l with
  | nil => simp [sanitizeAux] at h
  | cons a rest ih =>
    by_cases ha : isAllowedChar a = true
    · rw [sanitizeAux_cons_allowed true a rest ha] at h
      simp only [List.head?_cons, Option.some.injEq] at h
      exact h ▸ ha
    · rw [sanitizeAux_cons_run a rest ha] at h
      exact ih h

theorem sanitizeAux_mem (b : Bool) (l : List Char) :
    ∀ c ∈ sanitizeAux b l, isAllowedChar c = true ∨ c = '-' := by
  induction l generalizing b with
  | nil => simp [sanitizeAux]
  | cons a rest ih =>
    intro c hc
    by_cases ha : isAllowedChar a = true
    · rw [sanitizeAux_cons_allowed b a rest ha] at hc
      rcases List.mem_cons.mp hc with rfl | hc
      · exact Or.inl ha
      · exact ih false c hc
    · cases b with
      | true =>
        rw [sanitizeAux_cons_run a rest ha] at hc
        exact ih true c hc
      | false =>
        rw [sanitizeAux_cons_start a rest ha] at hc
        rcases List.mem_cons.mp hc with rfl | hc
        · exact Or.inr rfl
        · exact ih true c hc

theorem sanitizeAux_filter (b : Bool) (l : List Char) :
    (sanitizeAux b l).filter isAllowedChar = l.filter isAllowedChar := by
  induction l generalizing b with
  | nil => simp [sanitizeAux]
  | cons a rest ih =>
    by_cases ha : isAllowedChar a = true
    · rw [sanitizeAux_cons_allowed b a rest ha]
      simp [List.filter_cons, ha, ih false]
    · cases b with
      | true =>
        rw [sanitizeAux_cons_run a rest ha]
        rw [ih true]
        simp [List.filter_cons, ha]
      | false =>
        rw [sanitizeAux_cons_start a rest ha]
        simp only [List.filter_cons, show isAllowedChar '-' = false from by decide,
          Bool.false_eq_true, if_false]
        rw [ih true]
        simp [ha]

theorem sanitizeAux_chain (b : Bool) (l : List Char) :
    List.Chain' (fun a c => ¬(a = '-' ∧ c = '-')) (sanitizeAux b l) := by
  induction l generalizing b with
  | nil => simp [sanitizeAux]
  | cons a rest ih =>
    by_cases ha : isAllowedChar a = true
    · rw [sanitizeAux_cons_allowed b a rest ha]
      rw [List.chain'_cons']
      refine ⟨?_, ih false⟩
      intro y _ hcon
      rw [hcon.1] at ha
      simp [isAllowedChar] at ha
    · cases b with
      | true =>
        rw [sanitizeAux_cons_run a rest ha]
        exact ih true
      | false =>
        rw [sanitizeAux_cons_start a rest ha]
        rw [List.chain'_cons']
        refine ⟨?_, ih true⟩
        intro y hy hcon
        have hall := head_sanitizeAux_true rest y hy
        rw [hcon.2] at hall
        simp [isAllowedChar] at hall

theorem sanitizeAux_id (l : List Char) (h : ∀ c ∈ l, isAllowedChar c = true) :
    sanitizeAux false l = l := by
  induction l with
  | nil => rfl
  | cons a rest ih =>
    rw [sanitizeAux_cons_allowed false a rest (h a (by simp))]
    rw [ih (fun c hc => h c (List.mem_cons_of_mem a hc))]

theorem sanitizeAux_dash (l : List Char)
    (h : l.any (fun c => !isAllowedChar c) = true) :
    '-' ∈ sanitizeAux false l := by
  induction l with
  | nil => simp at h
  | cons a rest ih =>
    by_cases ha : isAllowedChar a = true
    · simp only [List.any_cons, ha, Bool.not_true, Bool.false_or] at h
      rw [sanitizeAux_cons_allowed false a rest ha]
      exact List.mem_cons_of_mem a (ih h)
    · rw [sanitizeAux_cons_start a rest ha]
      exact List.mem_cons_self _ _

/-- C10 amended: the sanitizer replaces each maximal run of characters
outside `[A-Za-z0-9.]` by a single `'-'` (so the output never contains two
adjacent dashes), while the allowed characters are preserved in order;
names made only of allowed characters are unchanged, and any disallowed
character produces a dash. -/
theorem sanitize_filename_runs (s : String) :
    (∀ c ∈ (sanitizeFilename s).data, isAllowedChar c = true ∨ c = '-')
    ∧ (sanitizeFilename s).data.filter isAllowedChar = s.data.filter isAllowedChar
    ∧ List.Chain' (fun a c => ¬(a = '-' ∧ c = '-')) (sanitizeFilename s).data
    ∧ ((∀ c ∈ s.data, isAllowedChar c = true) → sanitizeFilename s = s)
    ∧ (s.data.any (fun c => !isAllowedChar c) = true →
        '-' ∈ (sanitizeFilename s).data) :=
  ⟨sanitizeAux_mem false s.data,
   sanitizeAux_filter false s.data,
   sanitizeAux_chain false s.data,
   fun h => String.ext (sanitizeAux_id s.data h),
   fun h => sanitizeAux_dash s.data h⟩

/-- Witness for C10 (amended) at concrete inputs: an all-allowed name is
unchanged; a name with disallowed characters gains a dash; allowed
characters survive in order. -/
theorem sanitize_filename_runs_witness :
    sanitizeFilename "abc.mp3" = "abc.mp3"
    ∧ '-' ∈ (sanitizeFilename "my file (1).mp3").data
    ∧ (sanitizeFilename "my file (1).mp3").data.filter isAllowedChar =
        "my file (1).mp3".data.filter isAllowedChar :=
  ⟨(sanitize_filename_runs "abc.mp3").2.2.2.1 (by decide),
   (sanitize_filename_runs "my file (1).mp3").2.2.2.2 (by decide),
   (sanitize_filename_runs "my file (1).mp3").2.1⟩

/-! ## C4: bucketing -/

theorem lookupGroup_eq_none_iff (m : List (Nat × SegGroup)) (k : Nat) :
    lookupGroup m k = none ↔ k ∉ m.map Prod.fst := by
  rw [lookupGroup, Option.map_eq_none', List.find?_eq_none]
  simp only [decide_eq_true_eq, List.mem_map, not_exists]
  constructor
  · intro h p hp
    exact h p hp.1 hp.2
  · intro h p hp hk
    exact h p ⟨hp, hk⟩

theorem lookupGroup_isSome_of_mem (m : List (Nat × SegGroup)) (k : Nat)
    (h : k ∈ m.map Prod.fst) : (lookupGroup m k).isSome = true := by
  cases hl : lookupGroup m k with
  | none => exact absurd ((lookupGroup_eq_none_iff m k).mp hl) (by simpa using h)
  | some g => rfl

theorem mem_of_lookupGroup_some (m : List (Nat × SegGroup)) (k : Nat) (g : SegGroup)
    (h : lookupGroup m k = some g) : k ∈ m.map Prod.fst := by
  by_contra hmem
  rw [(lookupGroup_eq_none_iff m k).mpr hmem] at h
  exact Option.noConfusion h

theorem lookupGroup_map_update (m : List (Nat × SegGroup)) (k0 : Nat) (newg : SegGroup)
    (h : k0 ∈ m.map Prod.fst) :
    lookupGroup (m.map (fun p => if p.1 = k0 then (p.1, newg) else p)) k0 = some newg := by
  induction m with
  | nil => simp at h
  | cons q m ih =>
    by_cases hq : q.1 = k0
    · simp [lookupGroup, List.find?_cons, hq]
    · have h' : k0 ∈ m.map Prod.fst := by
        rcases List.mem_map.mp h with ⟨p, hp, hpk⟩
        rcases List.mem_cons.mp hp with rfl | hp
        · exact absurd hpk hq
        · exact List.mem_map.mpr ⟨p, hp, hpk⟩
      simp only [List.map_cons, if_neg hq, lookupGroup, List.find?_cons]
      rw [show (decide (q.1 = k0)) = false by simp [hq]]
      exact ih h'

theorem lookupGroup_map_update_other (m : List (Nat × SegGroup)) (k0 k : Nat)
    (newg : SegGroup) (hk : k ≠ k0) :
    lookupGroup (m.map (fun p => if p.1 = k0 then (p.1, newg) else p)) k =
      lookupGroup m k := by
  induction m with
  | nil => rfl
  | cons q m ih =>
    by_cases hq : q.1 = k
    · have hq0 : ¬q.1 = k0 := fun h => hk (hq ▸ h)
      simp only [List.map_cons, if_neg hq0, lookupGroup, List.find?_cons]
      rw [show (decide (q.1 = k)) = true by simp [hq]]
    · simp only [List.map_cons, lookupGroup, List.find?_cons]
      have hfst : (if q.1 = k0 then (q.1, newg) else q).1 = q.1 := by
        split <;> rfl
      rw [hfst]
      rw [show (decide (q.1 = k)) = false by simp [hq]]
      exact ih

theorem lookupGroup_insert_self (interval : Nat) (m : List (Nat × SegGroup))
    (s : TimestampedTextSegment) :
    lookupGroup (insertGrouped interval m s) (keyOf interval s) =
      some (match lookupGroup m (keyOf interval s) with
        | none => ⟨s.start, s.«end», [s.text]⟩
        | some g => ⟨g.start, max g.«end» s.«end», g.texts ++ [s.text]⟩) := by
  cases hl : lookupGroup m (keyOf interval s) with
  | none =>
    have hfind : List.find? (fun p => decide (p.1 = keyOf interval s)) m = none :=
      Option.map_eq_none'.mp hl
    simp only [insertGrouped]
    rw [show lookupGroup m (s.start / interval * interval) = none from hl]
    unfold lookupGroup
    rw [List.find?_append]
    rw [show List.find? (fun p => decide (p.1 = keyOf interval s)) m = none from hfind]
    simp [keyOf]
  | some g =>
    have hmem : keyOf interval s ∈ m.map Prod.fst := mem_of_lookupGroup_some m _ g hl
    simp only [insertGrouped]
    rw [show lookupGroup m (s.start / interval * interval) = some g from hl]
    exact lookupGroup_map_update m (keyOf interval s)
      ⟨g.start, max g.«end» s.«end», g.texts ++ [s.text]⟩ hmem

theorem lookupGroup_insert_other (interval : Nat) (m : List (Nat × SegGroup))
    (s : TimestampedTextSegment) (k : Nat) (hk : k ≠ keyOf interval s) :
    lookupGroup (insertGrouped interval m s) k = lookupGroup m k := by
  cases hl : lookupGroup m (keyOf interval s) with
  | none =>
    simp only [insertGrouped]
    rw [show lookupGroup m (s.start / interval * interval) = none from hl]
    unfold lookupGroup
    rw [List.find?_append]
    have hsingle : List.find? (fun p => decide (p.1 = k))
        [(s.start / interval * interval, (⟨s.start, s.«end», [s.text]⟩ : SegGroup))] =
        none := by
      simp only [List.find?_cons, List.find?_nil]
      rw [show (decide ((s.start / interval * interval : Nat) = k)) = false by
        simp; exact fun h => hk (h ▸ rfl)]
    rw [hsingle, Option.or_none]
  | some g =>
    simp only [insertGrouped]
    rw [show lookupGroup m (s.start / interval * interval) = some g from hl]
    exact lookupGroup_map_update_other m (keyOf interval s) k _ hk

theorem keys_insertGrouped (interval : Nat) (m : List (Nat × SegGroup))
    (s : TimestampedTextSegment) :
    (insertGrouped interval m s).map Prod.fst =
      if (lookupGroup m (keyOf interval s)).isSome then m.map Prod.fst
      else m.map Prod.fst ++ [keyOf interval s] := by
  cases hl : lookupGroup m (keyOf interval s) with
  | none =>
    simp only [insertGrouped]
    rw [show lookupGroup m (s.start / interval * interval) = none from hl]
    simp [keyOf]
  | some g =>
    simp only [insertGrouped]
    rw [show lookupGroup m (s.start / interval * interval) = some g from hl]
    simp only [Option.isSome_some, if_true, List.map_map]
    apply List.map_congr_left
    intro p _
    simp only [Function.comp_apply]
    split <;> rfl

theorem groupedSegments_lookup (interval : Nat)
    (segments : List TimestampedTextSegment) (k : Nat) :
    lookupGroup (groupedSegments interval segments) k =
      groupAgg (segments.filter (fun s => keyOf interval s = k)) := by
  induction segments using List.reverseRecOn with
  | nil => rfl
  | append_singleton segs s ih =>
    rw [groupedSegments, List.foldl_append, List.foldl_cons, List.foldl_nil,
      ← groupedSegments, List.filter_append]
    by_cases hk : k = keyOf interval s
    · subst hk
      rw [lookupGroup_insert_self, ih]
      have hfs : List.filter (fun s' => decide (keyOf interval s' = keyOf interval s)) [s] =
          [s] := by simp
      rw [hfs]
      cases hmm : segs.filter (fun s' => decide (keyOf interval s' = keyOf interval s)) with
      | nil => simp [groupAgg]
      | cons mh mt =>
        simp only [groupAgg, List.cons_append, Option.some.injEq]
        simp [List.foldl_append, List.map_append]
    · rw [lookupGroup_insert_other interval _ s k hk, ih]
      congr 1
      have hfs : List.filter (fun s' => decide (keyOf interval s' = k)) [s] = [] := by
        simp only [List.filter_cons, List.filter_nil]
        rw [show (decide (keyOf interval s = k)) = false by
          simp; exact fun h => hk h.symm]
        simp
      rw [hfs, List.append_nil]

theorem groupedSegments_keys_nodup (interval : Nat)
    (segments : List TimestampedTextSegment) :
    ((groupedSegments interval segments).map Prod.fst).Nodup := by
  induction segments using List.reverseRecOn with
  | nil => simp [groupedSegments]
  | append_singleton segs s ih =>
    rw [groupedSegments, List.foldl_append, List.foldl_cons, List.foldl_nil,
      ← groupedSegments, keys_insertGrouped]
    split
    · exact ih
    · rename_i h
      have hnot : keyOf interval s ∉ (groupedSegments interval segs).map Prod.fst :=
        fun hm => h (lookupGroup_isSome_of_mem _ _ hm)
      simp [List.nodup_append, ih, hnot]

theorem groupedSegments_keys_mem (interval : Nat)
    (segments : List TimestampedTextSegment) (k : Nat) :
    k ∈ (groupedSegments interval segments).map Prod.fst ↔
      ∃ s ∈ segments, keyOf interval s = k := by
  have h1 := lookupGroup_eq_none_iff (groupedSegments interval segments) k
  rw [groupedSegments_lookup] at h1
  constructor
  · intro hk
    by_contra hne
    push_neg at hne
    have hfil : segments.filter (fun s => keyOf interval s = k) = [] := by
      apply List.filter_eq_nil_iff.mpr
      intro s hs
      simp only [decide_eq_true_eq]
      exact hne s hs
    rw [hfil] at h1
    exact (h1.mp rfl) hk
  · rintro ⟨s, hs, hks⟩
    by_contra hk
    have h2 := h1.mpr hk
    have hmemf : s ∈ segments.filter (fun s' => keyOf interval s' = k) :=
      List.mem_filter.mpr ⟨hs, by simp [hks]⟩
    cases hfil : segments.filter (fun s' => decide (keyOf interval s' = k)) with
    | nil => rw [hfil] at hmemf; simp at hmemf
    | cons mh mt => rw [hfil] at h2; simp [groupAgg] at h2

theorem filterMap_eq_map_of_some {α β : Type} (f : α → Option β) (g : α → β)
    (l : List α) (h : ∀ x ∈ l, f x = some (g x)) : l.filterMap f = l.map g := by
  induction l with
  | nil => rfl
  | cons a t ih =>
    rw [List.filterMap_cons, h a (by simp), List.map_cons,
      ih (fun x hx => h x (List.mem_cons_of_mem a hx))]

theorem sorted_keys_eq (interval : Nat) (segments : List TimestampedTextSegment)
    (hI : 0 < interval) :
    List.insertionSort (· ≤ ·) ((groupedSegments interval segments).map Prod.fst) =
      (specBucketKeys interval segments).map (· * interval) := by
  apply List.eq_of_perm_of_sorted (r := (· ≤ ·))
  · have h1 := List.perm_insertionSort (· ≤ ·)
      ((groupedSegments interval segments).map Prod.fst)
    have h2 : List.Perm
        (((segments.map (fun s => s.start / interval)).dedup).map (· * interval))
        ((specBucketKeys interval segments).map (· * interval)) :=
      (List.perm_insertionSort (· ≤ ·) _).symm.map _
    refine h1.trans (List.Perm.trans ?_ h2)
    apply List.perm_of_nodup_nodup_toFinset_eq
    · exact groupedSegments_keys_nodup interval segments
    · exact (List.nodup_dedup _).map
        (fun a b hab => Nat.eq_of_mul_eq_mul_right hI hab)
    · ext a
      simp only [List.mem_toFinset]
      rw [groupedSegments_keys_mem]
      simp only [List.mem_map, List.mem_dedup, keyOf]
      constructor
      · rintro ⟨s, hs, rfl⟩
        exact ⟨s.start / interval, ⟨s, hs, rfl⟩, rfl⟩
      · rintro ⟨j, ⟨s, hs, rfl⟩, rfl⟩
        exact ⟨s, hs, rfl⟩
  · exact List.sorted_insertionSort (· ≤ ·) _
  · exact List.Pairwise.map _ (fun a b hab => Nat.mul_le_mul_right interval hab)
      (List.sorted_insertionSort (· ≤ ·) _)

theorem bucketMembers_eq_filter_keyOf (interval : Nat) (j : Nat)
    (segments : List TimestampedTextSegment) (hI : 0 < interval) :
    segments.filter (fun s => keyOf interval s = j * interval) =
      bucketMembers interval j segments := by
  unfold bucketMembers
  apply List.filter_congr
  intro s _
  simp only [keyOf, decide_eq_decide]
  constructor
  · intro h; exact Nat.eq_of_mul_eq_mul_right hI h
  · intro h; rw [h]

theorem lookupGroup_grouped_spec (interval : Nat) (j : Nat)
    (segments : List TimestampedTextSegment) (hI : 0 < interval)
    (hmem : ∃ s ∈ segments, s.start / interval = j) :
    lookupGroup (groupedSegments interval segments) (j * interval) =
      some (specGroupOf interval j segments) := by
  rw [groupedSegments_lookup, bucketMembers_eq_filter_keyOf interval j segments hI]
  obtain ⟨s, hs, hsj⟩ := hmem
  have hsf : s ∈ bucketMembers interval j segments :=
    List.mem_filter.mpr ⟨hs, by simp [hsj]⟩
  cases hfil : bucketMembers interval j segments with
  | nil => rw [hfil] at hsf; simp at hsf
  | cons mh mt =>
    simp [groupAgg, specGroupOf, hfil, List.foldl_map, Nat.zero_max]

theorem bucketedSegments_eq_specBuckets (interval : Nat)
    (segments : List TimestampedTextSegment) (hI : 0 < interval) :
    bucketedSegments interval segments = specBuckets interval segments := by
  unfold bucketedSegments objectValues
  rw [sorted_keys_eq interval segments hI, List.filterMap_map]
  rw [filterMap_eq_map_of_some _ (fun j => specGroupOf interval j segments) _ ?_]
  · rw [List.map_map]
    rfl
  · intro j hj
    have hmem : ∃ s ∈ segments, s.start / interval = j := by
      have := (List.perm_insertionSort (· ≤ ·)
        ((segments.map (fun s => s.start / interval)).dedup)).mem_iff.mp hj
      simpa [List.mem_dedup] using this
    exact lookupGroup_grouped_spec interval j segments hI hmem

/-- C4: for every segment sequence and interval > 0, each segment is
assigned to bucket `floor(start / interval)`; the produced bucket list is
exactly the claim's description — per bucket the start of the first
encountered member, the maximum of member ends, the separator-free
concatenation of member texts (trimmed) — listed in ascending bucket key
order, and the renderer emits one line per bucket in that order. -/
theorem bucketing_spec (interval : Nat) (segments : List TimestampedTextSegment)
    (fmt : String) (hI : 0 < interval) :
    bucketedSegments interval segments = specBuckets interval segments
    ∧ segmentsToTimestampedString segments fmt interval =
        String.join ((specBuckets interval segments).map
          (segLine (if fmt = "auto" then autoFormat segments else fmt)))
    ∧ ∀ s ∈ segments, s ∈ bucketMembers interval (s.start / interval) segments := by
  refine ⟨bucketedSegments_eq_specBuckets interval segments hI, ?_, ?_⟩
  · simp only [segmentsToTimestampedString, if_pos hI]
    rw [renderSegments_eq_join, bucketedSegments_eq_specBuckets interval segments hI]
  · intro s hs
    exact List.mem_filter.mpr ⟨hs, by simp⟩

/-- Witness for C4 at a concrete unsorted input with interval 30: the code's
buckets coincide with the claim's buckets, the rendering follows them, and
the segment starting at 70 lands in bucket `70 / 30 = 2`. -/
theorem bucketing_spec_witness :
    bucketedSegments 30 sampleSegments = specBuckets 30 sampleSegments
    ∧ segmentsToTimestampedString sampleSegments "mm:ss" 30 =
        String.join ((specBuckets 30 sampleSegments).map
          (segLine (if ("mm:ss" : String) = "auto" then autoFormat sampleSegments
            else "mm:ss")))
    ∧ (⟨70, 80, "c"⟩ : TimestampedTextSegment) ∈
        bucketMembers 30 (70 / 30) sampleSegments :=
  ⟨(bucketing_spec 30 sampleSegments "mm:ss" (by decide)).1,
   (bucketing_spec 30 sampleSegments "mm:ss" (by decide)).2.1,
   (bucketing_spec 30 sampleSegments "mm:ss" (by decide)).2.2 ⟨70, 80, "c"⟩ (by decide)⟩
